import Mathlib

/-!
Shallow embedding of the HouseGAN++ constraint-graph construction and
incremental mask-fixing refinement controller (`inference.py`), together with
theorems about the specified properties.

Conventions:
* Python dicts with string keys become association lists looked up with
  `List.find?` (keys are unique, so this agrees with dict lookup).
* `numpy` / `torch` tensors of room features and edges become Lean lists.
* Float constants that only serve as tags (`1.0`, `0.0`, `-1.0`) are embedded
  as exact numbers: room-feature entries and adjacency relations as `Int`,
  mask pixel values as `ℚ` (a mask map is a pixel-indexed function `ℚ`).
* The pretrained generative model is opaque: the refinement controller is
  parametrised by an arbitrary function `infer` producing the next mask set.
-/

namespace HouseGAN

/-- `ROOM_CLASS` dict from `inference.py`: room name to 1-based class id. -/
def ROOM_CLASS : List (String × Nat) :=
  [("living_room", 1), ("kitchen", 2), ("bedroom", 3), ("bathroom", 4),
   ("balcony", 5), ("entrance", 6), ("dining room", 7), ("study room", 8),
   ("storage", 10), ("front door", 15), ("unknown", 16), ("interior_door", 17)]

/-- Dict lookup `self.room_class[name]` (as an `Option`, `none` = key absent). -/
def lookupRoom (name : String) : Option Nat :=
  (ROOM_CLASS.find? (fun p => p.1 == name)).map (fun p => p.2)

/-- The catalog room-type names (the keys of `ROOM_CLASS`). -/
def catalogNames : List String := ROOM_CLASS.map (fun p => p.1)

/-- `REAL_ADJACENCY_RULES` dict from `inference.py`, in source order:
pair of room names to relation (`1` adjacent, `-1` separate). -/
def REAL_ADJACENCY_RULES : List ((String × String) × Int) :=
  [(("living_room", "bedroom"), 1),
   (("living_room", "kitchen"), 1),
   (("living_room", "bathroom"), 1),
   (("living_room", "balcony"), 1),
   (("bedroom", "balcony"), -1),
   (("kitchen", "balcony"), -1),
   (("bedroom", "bathroom"), -1),
   (("kitchen", "bathroom"), -1),
   (("bedroom", "bedroom"), -1),
   (("balcony", "balcony"), -1),
   (("living_room", "dining room"), 1),
   (("kitchen", "dining room"), 1),
   (("living_room", "entrance"), 1),
   (("living_room", "study room"), 1),
   (("bedroom", "study room"), -1),
   (("kitchen", "entrance"), -1),
   (("bathroom", "entrance"), -1),
   (("bathroom", "kitchen"), -1),
   (("bathroom", "dining room"), -1)]

/-- Dict lookup `REAL_ADJACENCY_RULES[key]` / `key in REAL_ADJACENCY_RULES`. -/
def lookupRule (key : String × String) : Option Int :=
  (REAL_ADJACENCY_RULES.find? (fun p => p.1 == key)).map (fun p => p.2)

/-- Lexicographic order on character code points, as Python compares
strings (strict prefixes sort first, otherwise first differing code
point decides). -/
def lexLt : List Char → List Char → Bool
  | [], [] => false
  | [], _ :: _ => true
  | _ :: _, [] => false
  | a :: as, b :: bs =>
    if a.toNat < b.toNat then true
    else if b.toNat < a.toNat then false
    else lexLt as bs

/-- Python string comparison `a < b`. -/
def pyStrLt (a b : String) : Bool := lexLt a.data b.data

/-- `tuple(sorted([a, b]))`: the two names in ascending string order
(for two elements, `sorted` swaps them exactly when `b < a`). -/
def sortedPair (a b : String) : String × String :=
  if pyStrLt b a then (b, a) else (a, b)

/-- `FixedHouseGANInference._get_default_adjacency`: the heuristic fallback
chain, mirrored branch for branch. -/
def get_default_adjacency (room1 room2 : String) : Int :=
  if room1 = "living_room" ∨ room2 = "living_room" then 1
  else if (room1 = "kitchen" ∨ room1 = "bathroom") ∧
          (room2 = "kitchen" ∨ room2 = "bathroom") then -1
  else if (room1 = "bedroom" ∨ room1 = "study room") ∧
          (room2 = "kitchen" ∨ room2 = "bathroom") then -1
  else if room1 = room2 then -1
  else -1

/-- The pairwise relation computed in the edge loop of
`create_data_driven_graph`: look the sorted pair up in
`REAL_ADJACENCY_RULES`, else fall back to `_get_default_adjacency`
applied in input order. -/
def classifyPair (room1 room2 : String) : Int :=
  match lookupRule (sortedPair room1 room2) with
  | some v => v
  | none => get_default_adjacency room1 room2

/-- The name-resolution loop of `create_data_driven_graph`: known names map to
`ROOM_CLASS[name] - 1` (0-based ids, in input order), unknown names are
dropped and produce a warning. Returns (room_ids, warned names). -/
def resolveRooms : List String → List Nat × List String
  | [] => ([], [])
  | name :: rest =>
    let r := resolveRooms rest
    match lookupRoom name with
    | some v => ((v - 1) :: r.1, r.2)
    | none => (r.1, name :: r.2)

/-- One row of the node tensor: `nodes[i, room_id] = 1.0` over 18 columns. -/
def oneHot (room_id : Nat) : List Int :=
  (List.range 18).map (fun k => if k = room_id then 1 else 0)

/-- Inner edge loop body for a fixed `i`: for `j in range(i+1, num_rooms)`,
classify `room_types[i]` vs `room_types[j]` and append the two mirrored
edges `[i, adj, j]` and `[j, adj, i]`. -/
def edgesFor (room_types : List String) (num_rooms i : Nat) :
    List (Nat × Int × Nat) :=
  (List.range' (i + 1) (num_rooms - (i + 1))).flatMap (fun j =>
    let adj := classifyPair (room_types.getD i "") (room_types.getD j "")
    [(i, adj, j), (j, adj, i)])

/-- The full nested edge loop of `create_data_driven_graph`. -/
def edgeList (room_types : List String) (num_rooms : Nat) :
    List (Nat × Int × Nat) :=
  (List.range num_rooms).flatMap (edgesFor room_types num_rooms)

/-- The constraint graph returned by `create_data_driven_graph`:
node feature rows, edge triples `(src, relation, dst)`, and 0-based ids. -/
structure ConstraintGraph where
  nodes : List (List Int)
  edges : List (Nat × Int × Nat)
  room_ids : List Nat
deriving DecidableEq

/-- `FixedHouseGANInference.create_data_driven_graph`: resolve names (dropping
unknowns with warnings), fail when nothing resolves, build one-hot nodes and
the pairwise edge list, substituting the single placeholder edge
`[0, 1, 0]` when the loop produced no edges. Returns the recorded
unknown-name warnings alongside the result. -/
def create_data_driven_graph (room_types : List String) :
    List String × Except String ConstraintGraph :=
  let r := resolveRooms room_types
  let room_ids := r.1
  if room_ids.isEmpty then (r.2, Except.error "No valid room types provided")
  else
    let num_rooms := room_ids.length
    let nodes := room_ids.map oneHot
    let edges := edgeList room_types num_rooms
    let edges := if edges.isEmpty then [(0, 1, 0)] else edges
    (r.2, Except.ok ⟨nodes, edges, room_ids⟩)

/-! ## Mask encoding (`fix_nodes` / `_init_input`) -/

/-- A per-node mask map: pixel grid of float values, embedded exactly. -/
def MaskMap : Type := Nat → Nat → ℚ

/-- The sentinel mask assigned to non-fixed nodes: every pixel `-1.0`. -/
def sentinelMask : MaskMap := fun _ _ => -1

/-- The all-zero mask (`torch.zeros_like`). -/
def zeroMask : MaskMap := fun _ _ => 0

/-- The all-one mask (the value written at fixed indices of the indicator
channel). -/
def oneMask : MaskMap := fun _ _ => 1

/-- Tensor scatter assignment `xs[inds] = v`: every row whose index occurs in
`inds` is replaced by `v`, all other rows are unchanged. -/
def assignAt (xs : List MaskMap) (inds : List Nat) (v : MaskMap) :
    List MaskMap :=
  xs.mapIdx (fun k x => if k ∈ inds then v else x)

/-- `fix_nodes(prev_mks, ind_fixed_nodes)`: overwrite the masks of all
non-fixed rows with the sentinel, build the indicator channel (`0.0` at
non-fixed rows of a zero tensor, `1.0` at fixed rows), and stack the two
channels per node. -/
def fix_nodes (prev_mks : List MaskMap) (ind_fixed_nodes : List Nat) :
    List (MaskMap × MaskMap) :=
  let ind_not_fixed_nodes :=
    (List.range prev_mks.length).filter (fun k => k ∉ ind_fixed_nodes)
  let given_masks := assignAt prev_mks ind_not_fixed_nodes sentinelMask
  let inds_masks :=
    assignAt (assignAt (prev_mks.map (fun _ => zeroMask)) ind_not_fixed_nodes
      zeroMask) ind_fixed_nodes oneMask
  given_masks.zip inds_masks

/-! ## Incremental refinement controller (`generate_floorplan`) -/

/-- `sorted(list(set(real_nodes)))`: the distinct type ids in ascending
order. -/
def sortedDistinct (real_nodes : List Nat) : List Nat :=
  real_nodes.dedup.insertionSort (fun a b => a ≤ b)

/-- `np.where(real_nodes == t)[0]`: the indices holding type `t`,
ascending. -/
def whereEq (real_nodes : List Nat) (t : Nat) : List Nat :=
  (List.range real_nodes.length).filter (fun i => real_nodes.getD i 0 == t)

/-- `_fixed_nds` of refinement pass `k` (0-based): concatenation of
`np.where(real_nodes == t)[0]` over the first `k+1` sorted distinct types. -/
def fixedNodes (real_nodes : List Nat) (k : Nat) : List Nat :=
  ((sortedDistinct real_nodes).take (k + 1)).flatMap (whereEq real_nodes)

/-- `len(selected_types)`: the number of refinement passes after warm-up,
`min(10, number of distinct types)`. -/
def numPasses (real_nodes : List Nat) : Nat :=
  min 10 (sortedDistinct real_nodes).length

/-- The refinement loop of `generate_floorplan`, recording each state
`(masks, fixed_nodes)` handed to `self._infer`. `infer` is the opaque
model invocation producing the next mask set (of arbitrary type `μ`);
`masks = none` means "no prior masks". -/
def refineLoop {μ : Type} (infer : Option μ × List Nat → μ)
    (real_nodes : List Nat) (masks : μ) :
    List Nat → List (Option μ × List Nat)
  | [] => []
  | k :: rest =>
    (some masks, fixedNodes real_nodes k) ::
      refineLoop infer real_nodes
        (infer (some masks, fixedNodes real_nodes k)) rest

/-- All states handed to `self._infer` during one `generate_floorplan` run
over resolved type ids `real_nodes`: the warm-up state
`{'masks': None, 'fixed_nodes': []}` followed by one refinement state per
pass, each carrying the previous pass's output masks. -/
def refineStates {μ : Type} (infer : Option μ × List Nat → μ)
    (real_nodes : List Nat) : List (Option μ × List Nat) :=
  (none, []) ::
    refineLoop infer real_nodes (infer (none, []))
      (List.range (numPasses real_nodes))

/-- `generate_floorplan` up to the model-state schedule: build the graph
(with its possible failure), then run the incremental refinement on
`real_nodes = room_ids`. -/
def generate_floorplan_states {μ : Type} (infer : Option μ × List Nat → μ)
    (room_types : List String) :
    Except String (List (Option μ × List Nat)) :=
  match (create_data_driven_graph room_types).2 with
  | Except.error e => Except.error e
  | Except.ok g => Except.ok (refineStates infer g.room_ids)

/-! ## Concrete example inputs used in counterexamples and witnesses -/

/-- A request naming 11 distinct catalog types (the catalog has 12), which
drives the pass cap `min(10, ...)` below the distinct-type count. -/
def rtEleven : List String :=
  ["living_room", "kitchen", "bedroom", "bathroom", "balcony", "entrance",
   "dining room", "study room", "storage", "front door", "unknown"]

/-- The resolved 0-based ids of `rtEleven`. -/
def rnEleven : List Nat := [0, 1, 2, 3, 4, 5, 6, 7, 9, 14, 15]

/-- Request `[kitchen, bedroom, bedroom]`. -/
def rtKbb : List String := ["kitchen", "bedroom", "bedroom"]

/-- The graph built from `rtKbb`. -/
def gKbb : ConstraintGraph :=
  ⟨[oneHot 1, oneHot 2, oneHot 2],
   [(0, -1, 1), (1, -1, 0), (0, -1, 2), (2, -1, 0), (1, -1, 2), (2, -1, 1)],
   [1, 2, 2]⟩

/-- Request `[living_room, sauna, kitchen]` (one unknown name). -/
def rtSauna : List String := ["living_room", "sauna", "kitchen"]

/-- The graph built from `rtSauna` (the unknown entry is dropped). -/
def gSauna : ConstraintGraph :=
  ⟨[oneHot 0, oneHot 1], [(0, 1, 1), (1, 1, 0)], [0, 1]⟩

/-- Request `[bedroom, living_room, bedroom]` (all names known). -/
def rtBlb : List String := ["bedroom", "living_room", "bedroom"]

/-- The graph built from `rtBlb`. -/
def gBlb : ConstraintGraph :=
  ⟨[oneHot 2, oneHot 0, oneHot 2],
   [(0, 1, 1), (1, 1, 0), (0, -1, 2), (2, -1, 0), (1, 1, 2), (2, 1, 1)],
   [2, 0, 2]⟩

/-- Request `[living_room, bedroom]`. -/
def rtLb : List String := ["living_room", "bedroom"]

/-- The graph built from `rtLb`. -/
def gLb : ConstraintGraph :=
  ⟨[oneHot 0, oneHot 2], [(0, 1, 1), (1, 1, 0)], [0, 2]⟩

/-! ## Helper lemmas -/

/-- Complete characterisation of the pairwise classification on catalog
types: it returns `1` exactly when one of the two names is
`living_room`, and `-1` otherwise. -/
theorem classifyPair_living_char : ∀ a ∈ catalogNames, ∀ b ∈ catalogNames,
    classifyPair a b =
      if a = "living_room" ∨ b = "living_room" then 1 else -1 := by
  decide

/-- Among catalog names, the 0-based resolved id is `0` exactly for
`living_room`. -/
theorem lookupRoom_living_iff : ∀ nm ∈ catalogNames,
    ((lookupRoom nm).getD 0 - 1 = 0 ↔ nm = "living_room") := by
  decide

/-- Every resolvable name is a catalog name. -/
theorem mem_catalog_of_lookupRoom {nm : String} {v : Nat}
    (h : lookupRoom nm = some v) : nm ∈ catalogNames := by
  unfold lookupRoom at h
  cases hf : ROOM_CLASS.find? (fun p => p.1 == nm) with
  | none => rw [hf] at h; exact absurd h (by simp)
  | some p =>
    rw [hf] at h
    have hp := List.find?_some hf
    have hmem := List.mem_of_find?_eq_some hf
    simp only [beq_iff_eq] at hp
    exact hp ▸ List.mem_map_of_mem (fun q => q.1) hmem

/-- Catalog ids are between 1 and 17. -/
theorem lookupRoom_id_bounds {nm : String} {v : Nat}
    (h : lookupRoom nm = some v) : 1 ≤ v ∧ v ≤ 17 := by
  unfold lookupRoom at h
  cases hf : ROOM_CLASS.find? (fun p => p.1 == nm) with
  | none => rw [hf] at h; exact absurd h (by simp)
  | some p =>
    rw [hf] at h
    simp only [Option.map_some', Option.some.injEq] at h
    have hmem := List.mem_of_find?_eq_some hf
    subst h
    fin_cases hmem <;> simp

/-- The resolution loop's ids are the `filterMap` of the request. -/
theorem resolveRooms_fst (rt : List String) :
    (resolveRooms rt).1 =
      rt.filterMap (fun nm => (lookupRoom nm).map (fun v => v - 1)) := by
  induction rt with
  | nil => rfl
  | cons nm rest ih =>
    simp only [resolveRooms, List.filterMap_cons]
    cases h : lookupRoom nm <;> simp [h, ih]

/-- The resolution loop's warnings are exactly the unknown names, in input
order. -/
theorem resolveRooms_snd (rt : List String) :
    (resolveRooms rt).2 = rt.filter (fun nm => (lookupRoom nm).isNone) := by
  induction rt with
  | nil => rfl
  | cons nm rest ih =>
    simp only [resolveRooms, List.filter_cons]
    cases h : lookupRoom nm <;> simp [h, ih]

/-- When every name resolves, the ids are a plain positional `map` of the
request. -/
theorem resolveRooms_all_known {rt : List String}
    (h : ∀ nm ∈ rt, (lookupRoom nm).isSome) :
    (resolveRooms rt).1 = rt.map (fun nm => (lookupRoom nm).getD 0 - 1) := by
  rw [resolveRooms_fst, List.filterMap_eq_map_iff_forall_eq_some.mpr]
  intro nm hm
  cases hv : lookupRoom nm with
  | none => exact absurd (h nm hm) (by simp [hv])
  | some v => simp [hv]

/-- Membership in one inner edge-loop block. -/
theorem mem_edgesFor {rt : List String} {n i : Nat} {e : Nat × Int × Nat} :
    e ∈ edgesFor rt n i ↔ ∃ j, i < j ∧ j < n ∧
      (e = (i, classifyPair (rt.getD i "") (rt.getD j ""), j) ∨
       e = (j, classifyPair (rt.getD i "") (rt.getD j ""), i)) := by
  simp only [edgesFor, List.mem_flatMap, List.mem_range'_1, List.mem_cons,
    List.not_mem_nil, or_false]
  constructor
  · rintro ⟨j, ⟨h1, h2⟩, h3⟩
    exact ⟨j, by omega, by omega, h3⟩
  · rintro ⟨j, h1, h2, h3⟩
    exact ⟨j, ⟨by omega, by omega⟩, h3⟩

/-- Membership in the full edge list: exactly the mirrored classified pairs
over `i < j < n`. -/
theorem mem_edgeList {rt : List String} {n : Nat} {e : Nat × Int × Nat} :
    e ∈ edgeList rt n ↔ ∃ i j, i < j ∧ j < n ∧
      (e = (i, classifyPair (rt.getD i "") (rt.getD j ""), j) ∨
       e = (j, classifyPair (rt.getD i "") (rt.getD j ""), i)) := by
  simp only [edgeList, List.mem_flatMap, List.mem_range]
  constructor
  · rintro ⟨i, hi, he⟩
    obtain ⟨j, h1, h2, h3⟩ := mem_edgesFor.mp he
    exact ⟨i, j, h1, h2, h3⟩
  · rintro ⟨i, j, h1, h2, h3⟩
    exact ⟨i, by omega, mem_edgesFor.mpr ⟨j, h1, h2, h3⟩⟩

/-- Sum of a constant over a list. -/
theorem sum_map_const {α : Type} (l : List α) (c : Nat) :
    (l.map (fun _ => c)).sum = c * l.length := by
  induction l with
  | nil => simp
  | cons a t ih =>
    simp only [List.map_cons, List.sum_cons, ih, List.length_cons]
    ring

/-- Each inner block contributes two edges per later index. -/
theorem length_edgesFor (rt : List String) (n i : Nat) :
    (edgesFor rt n i).length = 2 * (n - (i + 1)) := by
  have h : (edgesFor rt n i).length =
      ((List.range' (i + 1) (n - (i + 1))).map (fun _ => 2)).sum := by
    rw [edgesFor, List.length_flatMap]
    rfl
  rw [h, sum_map_const, List.length_range']

/-- The full edge loop emits `n * (n - 1)` edges. -/
theorem length_edgeList (rt : List String) (n : Nat) :
    (edgeList rt n).length = n * (n - 1) := by
  rw [edgeList, List.length_flatMap]
  have h1 : (List.range n).map (List.length ∘ edgesFor rt n) =
      (List.range n).map (fun i => 2 * (n - 1 - i)) := by
    apply List.map_congr_left
    intro i _
    simp only [Function.comp_apply, length_edgesFor]
    congr 1
    omega
  rw [h1]
  have h2 : ((List.range n).map (fun i => 2 * (n - 1 - i))).sum =
      ∑ i ∈ Finset.range n, 2 * (n - 1 - i) := rfl
  rw [h2, Finset.sum_range_reflect (fun j => 2 * j) n, ← Finset.mul_sum,
    Nat.mul_comm, Finset.sum_range_id_mul_two]

/-- `flatMap` of a pointwise-empty function is empty. -/
theorem flatMap_eq_nil_of_forall {α β : Type} (l : List α) (g : α → List β)
    (h : ∀ a ∈ l, g a = []) : l.flatMap g = [] := by
  induction l with
  | nil => rfl
  | cons a t ih =>
    rw [List.flatMap_cons, h a (List.mem_cons_self a t), List.nil_append]
    exact ih (fun b hb => h b (List.mem_cons_of_mem a hb))

/-- `flatMap` over a duplicate-free list whose function vanishes away from
one member collapses to that member's block. -/
theorem flatMap_eq_of_single {α β : Type} (l : List α) (g : α → List β)
    (a : α) (ha : a ∈ l) (hnd : l.Nodup)
    (hz : ∀ b ∈ l, b ≠ a → g b = []) : l.flatMap g = g a := by
  induction l with
  | nil => cases ha
  | cons x t ih =>
    by_cases hxa : x = a
    · subst hxa
      rw [List.flatMap_cons, flatMap_eq_nil_of_forall t g, List.append_nil]
      intro b hb
      exact hz b (List.mem_cons_of_mem x hb)
        (fun hbx => (List.nodup_cons.mp hnd).1 (hbx ▸ hb))
    · have hat : a ∈ t := by
        rcases List.mem_cons.mp ha with h | h
        · exact absurd h.symm hxa
        · exact h
      rw [List.flatMap_cons, hz x (List.mem_cons_self x t) hxa,
        List.nil_append]
      exact ih hat (List.nodup_cons.mp hnd).2
        (fun b hb => hz b (List.mem_cons_of_mem x hb))

/-- Filtering the edge list down to one unordered pair of endpoints yields
exactly the two mirrored edges of that pair, with the same relation. -/
theorem filter_edgeList_pair {rt : List String} {n i j : Nat}
    (hij : i < j) (hj : j < n) :
    (edgeList rt n).filter
        (fun e => decide ((e.1 = i ∧ e.2.2 = j) ∨ (e.1 = j ∧ e.2.2 = i))) =
      [(i, classifyPair (rt.getD i "") (rt.getD j ""), j),
       (j, classifyPair (rt.getD i "") (rt.getD j ""), i)] := by
  rw [edgeList, List.filter_flatMap]
  rw [flatMap_eq_of_single (List.range n) _ i
    (List.mem_range.mpr (Nat.lt_trans hij hj)) (List.nodup_range n)]
  · rw [edgesFor, List.filter_flatMap]
    rw [flatMap_eq_of_single (List.range' (i + 1) (n - (i + 1))) _ j
      (List.mem_range'_1.mpr ⟨by omega, by omega⟩) (List.nodup_range' _ _)]
    · simp
    · intro b hb hbj
      rw [List.mem_range'_1] at hb
      rw [List.filter_eq_nil_iff]
      intro e he
      rcases List.mem_cons.mp he with rfl | he
      · simp
        omega
      · rcases List.mem_cons.mp he with rfl | he
        · simp
          omega
        · cases he
  · intro b hb hbi
    rw [List.mem_range] at hb
    rw [List.filter_eq_nil_iff]
    intro e he
    obtain ⟨j1, h1, h2, h3⟩ := mem_edgesFor.mp he
    rcases h3 with rfl | rfl
    · simp
      omega
    · simp
      omega

/-- `sorted(list(set(real_nodes)))` has the same members as `real_nodes`. -/
theorem mem_sortedDistinct {rn : List Nat} {t : Nat} :
    t ∈ sortedDistinct rn ↔ t ∈ rn := by
  rw [sortedDistinct, (List.perm_insertionSort _ _).mem_iff, List.mem_dedup]

/-- Membership in `np.where(real_nodes == t)[0]`. -/
theorem mem_whereEq {rn : List Nat} {t i : Nat} :
    i ∈ whereEq rn t ↔ i < rn.length ∧ rn.getD i 0 = t := by
  simp [whereEq, List.mem_filter, List.mem_range]

/-- Membership in the pass-`k` fixed set: exactly the indices whose type lies
in the length-`(k+1)` prefix of the sorted distinct types. -/
theorem mem_fixedNodes {rn : List Nat} {k i : Nat} :
    i ∈ fixedNodes rn k ↔
      i < rn.length ∧ rn.getD i 0 ∈ (sortedDistinct rn).take (k + 1) := by
  simp only [fixedNodes, List.mem_flatMap]
  constructor
  · rintro ⟨t, ht, hi⟩
    obtain ⟨h1, h2⟩ := mem_whereEq.mp hi
    exact ⟨h1, h2 ▸ ht⟩
  · rintro ⟨h1, h2⟩
    exact ⟨rn.getD i 0, h2, mem_whereEq.mpr ⟨h1, rfl⟩⟩

/-- A one-longer `take` contains the shorter one. -/
theorem take_succ_subset {α : Type} (l : List α) (k : Nat) :
    l.take (k + 1) ⊆ l.take (k + 2) := by
  intro x hx
  have h : l.take (k + 1) = (l.take (k + 2)).take (k + 1) := by
    rw [List.take_take]
    congr 1
    omega
  exact List.take_subset _ _ (h ▸ hx)

/-- The fixed sets grow monotonically pass over pass. -/
theorem fixedNodes_subset_succ (rn : List Nat) (k : Nat) :
    fixedNodes rn k ⊆ fixedNodes rn (k + 1) := by
  intro i hi
  obtain ⟨h1, h2⟩ := mem_fixedNodes.mp hi
  exact mem_fixedNodes.mpr ⟨h1, take_succ_subset _ _ h2⟩

/-- The `fixed_nodes` components of the refinement loop states are the
per-pass fixed sets, in order. -/
theorem refineLoop_map_snd {μ : Type} (infer : Option μ × List Nat → μ)
    (rn : List Nat) (ks : List Nat) :
    ∀ m : μ, (refineLoop infer rn m ks).map Prod.snd =
      ks.map (fixedNodes rn) := by
  induction ks with
  | nil => intro m; rfl
  | cons k rest ih =>
    intro m
    simp only [refineLoop, List.map_cons, ih]

/-- The `fixed_nodes` components of the whole state schedule: the empty
warm-up set followed by the per-pass fixed sets. -/
theorem refineStates_map_snd {μ : Type} (infer : Option μ × List Nat → μ)
    (rn : List Nat) :
    (refineStates infer rn).map Prod.snd =
      [] :: (List.range (numPasses rn)).map (fixedNodes rn) := by
  simp only [refineStates, List.map_cons, refineLoop_map_snd]

/-- The schedule has one warm-up state plus `numPasses` refinement states. -/
theorem refineStates_length {μ : Type} (infer : Option μ × List Nat → μ)
    (rn : List Nat) :
    (refineStates infer rn).length = numPasses rn + 1 := by
  have h := congrArg List.length (refineStates_map_snd infer rn)
  simpa [Nat.add_comm] using h

/-- A successful graph build resolves at least one room. -/
theorem room_ids_ne_nil {rt : List String} {g : ConstraintGraph}
    (h : (create_data_driven_graph rt).2 = Except.ok g) :
    g.room_ids ≠ [] := by
  unfold create_data_driven_graph at h
  by_cases he : (resolveRooms rt).1.isEmpty
  · simp [he] at h
  · simp only [he, Bool.false_eq_true, if_false] at h
    cases h
    simpa [List.isEmpty_iff] using he

/-- A successful graph build returns exactly the resolved ids. -/
theorem ok_graph_room_ids {rt : List String} {g : ConstraintGraph}
    (h : (create_data_driven_graph rt).2 = Except.ok g) :
    g.room_ids = (resolveRooms rt).1 := by
  unfold create_data_driven_graph at h
  by_cases he : (resolveRooms rt).1.isEmpty
  · simp [he] at h
  · simp only [he, Bool.false_eq_true, if_false] at h
    cases h
    rfl

/-- A successful graph build returns the one-hot rows of the resolved ids. -/
theorem ok_graph_nodes {rt : List String} {g : ConstraintGraph}
    (h : (create_data_driven_graph rt).2 = Except.ok g) :
    g.nodes = (resolveRooms rt).1.map oneHot := by
  unfold create_data_driven_graph at h
  by_cases he : (resolveRooms rt).1.isEmpty
  · simp [he] at h
  · simp only [he, Bool.false_eq_true, if_false] at h
    cases h
    rfl

/-- A successful graph build returns the pair-loop edge list, or the
placeholder when that loop was empty. -/
theorem ok_graph_edges {rt : List String} {g : ConstraintGraph}
    (h : (create_data_driven_graph rt).2 = Except.ok g) :
    g.edges = (if (edgeList rt (resolveRooms rt).1.length).isEmpty
      then [(0, 1, 0)] else edgeList rt (resolveRooms rt).1.length) := by
  unfold create_data_driven_graph at h
  by_cases he : (resolveRooms rt).1.isEmpty
  · simp [he] at h
  · simp only [he, Bool.false_eq_true, if_false] at h
    cases h
    rfl

/-- Scatter assignment preserves the row count. -/
theorem assignAt_length (xs : List MaskMap) (inds : List Nat) (v : MaskMap) :
    (assignAt xs inds v).length = xs.length := by
  simp [assignAt]

/-- Row `k` after scatter assignment. -/
theorem assignAt_getD (xs : List MaskMap) (inds : List Nat) (v : MaskMap)
    (k : Nat) (hk : k < xs.length) :
    (assignAt xs inds v).getD k zeroMask =
      if k ∈ inds then v else xs.getD k zeroMask := by
  have h1 : k < (assignAt xs inds v).length := by
    rw [assignAt_length]; exact hk
  rw [List.getD_eq_getElem _ _ h1, List.getD_eq_getElem _ _ hk]
  simp [assignAt, List.getElem_mapIdx]

/-- The mask encoding keeps one stacked row per node. -/
theorem fix_nodes_length (prev_mks : List MaskMap) (ind_fixed : List Nat) :
    (fix_nodes prev_mks ind_fixed).length = prev_mks.length := by
  simp [fix_nodes, assignAt, List.length_zip]

/-- Row `k` of a zip of mask lists. -/
theorem zip_getD (as bs : List MaskMap) (k : Nat) (ha : k < as.length)
    (hb : k < bs.length) :
    (as.zip bs).getD k (zeroMask, zeroMask) =
      (as.getD k zeroMask, bs.getD k zeroMask) := by
  have h : k < (as.zip bs).length := by
    rw [List.length_zip]
    omega
  rw [List.getD_eq_getElem _ _ h, List.getD_eq_getElem _ _ ha,
    List.getD_eq_getElem _ _ hb, List.getElem_zip]

/-- Row `k` of the mask encoding: channel 0 carries the prior mask at fixed
indices and the sentinel elsewhere; channel 1 is the fixed indicator. -/
theorem fix_nodes_getD (prev_mks : List MaskMap) (ind_fixed : List Nat)
    (k : Nat) (hk : k < prev_mks.length) :
    (fix_nodes prev_mks ind_fixed).getD k (zeroMask, zeroMask) =
      (if k ∈ ind_fixed then prev_mks.getD k zeroMask else sentinelMask,
       if k ∈ ind_fixed then oneMask else zeroMask) := by
  have hfix : fix_nodes prev_mks ind_fixed =
      (assignAt prev_mks ((List.range prev_mks.length).filter
          (fun x => decide (x ∉ ind_fixed))) sentinelMask).zip
        (assignAt (assignAt (prev_mks.map (fun _ => zeroMask))
            ((List.range prev_mks.length).filter
              (fun x => decide (x ∉ ind_fixed))) zeroMask)
          ind_fixed oneMask) := rfl
  have hmem : (k ∈ (List.range prev_mks.length).filter
      (fun x => decide (x ∉ ind_fixed))) ↔ k ∉ ind_fixed := by
    simp [List.mem_filter, List.mem_range, hk]
  have hzl : k < (prev_mks.map (fun _ => zeroMask)).length := by
    rw [List.length_map]
    exact hk
  have hmapz : (prev_mks.map (fun _ => zeroMask)).getD k zeroMask =
      zeroMask := by
    rw [List.getD_eq_getElem _ _ hzl, List.getElem_map]
  rw [hfix, zip_getD _ _ k (by rw [assignAt_length]; exact hk)
    (by rw [assignAt_length, assignAt_length, List.length_map]; exact hk),
    assignAt_getD _ _ _ _ hk,
    assignAt_getD _ _ _ _ (by rw [assignAt_length, List.length_map]; exact hk),
    assignAt_getD _ _ _ _ hzl, hmapz]
  by_cases hf : k ∈ ind_fixed
  · have hnf : ¬(k ∈ (List.range prev_mks.length).filter
        (fun x => decide (x ∉ ind_fixed))) := fun h => (hmem.mp h) hf
    simp [hf, hnf]
  · have hnf : k ∈ (List.range prev_mks.length).filter
        (fun x => decide (x ∉ ind_fixed)) := hmem.mpr hf
    simp [hf, hnf]
    exact fun h => absurd h (Nat.not_le.mpr hk)

/-- Row `k` of `(List.range n).map f`. -/
theorem getD_map_range {α : Type} (f : Nat → α) (n k : Nat) (hk : k < n)
    (d : α) : ((List.range n).map f).getD k d = f k := by
  rw [List.getD_eq_getElem _ _ (by simpa using hk), List.getElem_map,
    List.getElem_range]

/-- The resolved ids are the known names, in order, each mapped to its
0-based catalog id. -/
theorem resolveRooms_fst_filter (rt : List String) :
    (resolveRooms rt).1 = (rt.filter (fun nm => (lookupRoom nm).isSome)).map
      (fun nm => (lookupRoom nm).getD 0 - 1) := by
  induction rt with
  | nil => rfl
  | cons nm rest ih =>
    simp only [resolveRooms, List.filter_cons]
    cases h : lookupRoom nm <;> simp [h, ih]

/-- Every resolved id is below the 18 one-hot columns. -/
theorem resolve_id_lt {rt : List String} {x : Nat}
    (hx : x ∈ (resolveRooms rt).1) : x < 18 := by
  rw [resolveRooms_fst] at hx
  rw [List.mem_filterMap] at hx
  obtain ⟨nm, _, hnm⟩ := hx
  cases hv : lookupRoom nm with
  | none => rw [hv] at hnm; cases hnm
  | some v =>
    rw [hv] at hnm
    obtain ⟨_, hb⟩ := lookupRoom_id_bounds hv
    simp only [Option.map_some', Option.some.injEq] at hnm
    omega

/-! ## Claim theorems -/

/-- Claim C1 (code bug): the curated table is NOT authoritative. The table
holds `('kitchen', 'dining room') ↦ 1` (Adjacent), but edge construction
looks up `tuple(sorted(...)) = ('dining room', 'kitchen')`, misses, and the
heuristic classifies the pair `-1` (Separate) — in both input orders, and in
the built graph for the request `['kitchen', 'dining room']`. -/
theorem c1_table_entry_not_applied :
    lookupRule ("kitchen", "dining room") = some 1 ∧
    classifyPair "kitchen" "dining room" = -1 ∧
    classifyPair "dining room" "kitchen" = -1 ∧
    (create_data_driven_graph ["kitchen", "dining room"]).2 =
      Except.ok ⟨[oneHot 1, oneHot 6], [(0, -1, 1), (1, -1, 0)], [1, 6]⟩ := by
  refine ⟨rfl, rfl, rfl, rfl⟩

/-- Claim C3: node fixing is type-level. Two node indices carrying the same
type id are fixed in exactly the same passes, and as soon as a node's type
id lies in the current prefix of sorted distinct types, that node (hence
every instance of the type) is in the pass's fixed set. -/
theorem c3_repeated_types_fix_together (rn : List Nat) (k i j : Nat)
    (hi : i < rn.length) (hj : j < rn.length)
    (hty : rn.getD i 0 = rn.getD j 0) :
    (i ∈ fixedNodes rn k ↔ j ∈ fixedNodes rn k) ∧
    (rn.getD i 0 ∈ (sortedDistinct rn).take (k + 1) →
      i ∈ fixedNodes rn k) := by
  constructor
  · rw [mem_fixedNodes, mem_fixedNodes, hty]
    simp [hi, hj]
  · intro hmem
    exact mem_fixedNodes.mpr ⟨hi, hmem⟩

/-- Witness for C3: request `[living_room, bedroom, bedroom]` resolves to
type ids `[0, 2, 2]`; the two bedroom nodes (indices 1 and 2) are fixed in
the same passes, and at pass 1 (prefix `[0, 2]`) both are fixed. -/
theorem c3_witness :
    (1 : Nat) < ([0, 2, 2] : List Nat).length ∧
    (2 : Nat) < ([0, 2, 2] : List Nat).length ∧
    ([0, 2, 2] : List Nat).getD 1 0 = ([0, 2, 2] : List Nat).getD 2 0 ∧
    ((1 ∈ fixedNodes [0, 2, 2] 1 ↔ 2 ∈ fixedNodes [0, 2, 2] 1) ∧
     (([0, 2, 2] : List Nat).getD 1 0 ∈ (sortedDistinct [0, 2, 2]).take 2 →
       1 ∈ fixedNodes [0, 2, 2] 1)) :=
  ⟨by decide, by decide, by decide,
    c3_repeated_types_fix_together [0, 2, 2] 1 1 2 (by decide) (by decide)
      (by decide)⟩

/-- Claim C4: the schedule of model invocations in `generate_floorplan` is
the warm-up state (no prior masks, empty fixed set) followed by exactly
`min(10, number of distinct resolved type ids)` refinement states. -/
theorem c4_pass_count_and_warmup {μ : Type}
    (infer : Option μ × List Nat → μ) (rt : List String)
    (g : ConstraintGraph)
    (hg : (create_data_driven_graph rt).2 = Except.ok g) :
    generate_floorplan_states infer rt =
      Except.ok (refineStates infer g.room_ids) ∧
    (refineStates infer g.room_ids).length =
      min 10 (sortedDistinct g.room_ids).length + 1 ∧
    (refineStates infer g.room_ids).head? = some (none, []) := by
  refine ⟨?_, ?_, rfl⟩
  · unfold generate_floorplan_states
    rw [hg]
  · rw [refineStates_length]
    rfl

/-- Witness for C4: the single-type request `[kitchen]` still gets the
warm-up invocation first, followed by one refinement pass. -/
theorem c4_witness :
    (create_data_driven_graph ["kitchen"]).2 =
      Except.ok ⟨[oneHot 1], [(0, 1, 0)], [1]⟩ ∧
    (generate_floorplan_states (fun _ : Option Unit × List Nat => ())
        ["kitchen"] =
      Except.ok (refineStates (fun _ => ()) ([1] : List Nat)) ∧
    (refineStates (fun _ : Option Unit × List Nat => ())
        ([1] : List Nat)).length =
      min 10 (sortedDistinct [1]).length + 1 ∧
    (refineStates (fun _ : Option Unit × List Nat => ())
        ([1] : List Nat)).head? = some (none, [])) :=
  ⟨rfl, c4_pass_count_and_warmup (fun _ => ()) ["kitchen"]
    ⟨[oneHot 1], [(0, 1, 0)], [1]⟩ rfl⟩

/-- Claim C6: the mask encoding keeps one stacked row per node; channel 0
overwrites every non-fixed node's mask with the sentinel `-1.0` regardless
of prior content and carries fixed nodes' prior masks forward unchanged;
channel 1 is `1.0` exactly at fixed indices and `0.0` elsewhere. -/
theorem c6_mask_encoding (prev_mks : List MaskMap) (ind_fixed : List Nat)
    (k : Nat) (hk : k < prev_mks.length) :
    (fix_nodes prev_mks ind_fixed).length = prev_mks.length ∧
    ((fix_nodes prev_mks ind_fixed).getD k (zeroMask, zeroMask)).1 =
      (if k ∈ ind_fixed then prev_mks.getD k zeroMask else sentinelMask) ∧
    ((fix_nodes prev_mks ind_fixed).getD k (zeroMask, zeroMask)).2 =
      (if k ∈ ind_fixed then oneMask else zeroMask) := by
  refine ⟨fix_nodes_length prev_mks ind_fixed, ?_, ?_⟩ <;>
    rw [fix_nodes_getD prev_mks ind_fixed k hk]

/-- Witness for C6 at a concrete input: two prior masks, node 0 fixed. -/
theorem c6_witness :
    (0 : Nat) < ([fun _ _ => 5, fun _ _ => 7] : List MaskMap).length ∧
    ((fix_nodes [fun _ _ => 5, fun _ _ => 7] [0]).length =
        ([fun _ _ => 5, fun _ _ => 7] : List MaskMap).length ∧
     ((fix_nodes [fun _ _ => 5, fun _ _ => 7] [0]).getD 0
        (zeroMask, zeroMask)).1 =
      (if 0 ∈ ([0] : List Nat) then
        ([fun _ _ => 5, fun _ _ => 7] : List MaskMap).getD 0 zeroMask
       else sentinelMask) ∧
     ((fix_nodes [fun _ _ => 5, fun _ _ => 7] [0]).getD 0
        (zeroMask, zeroMask)).2 =
      (if 0 ∈ ([0] : List Nat) then oneMask else zeroMask)) :=
  ⟨by decide, c6_mask_encoding [fun _ _ => 5, fun _ _ => 7] [0] 0
    (by decide)⟩

/-- Claim C7: the pairwise classification is order-independent on catalog
room types. -/
theorem c7_classify_comm (a b : String) (ha : a ∈ catalogNames)
    (hb : b ∈ catalogNames) : classifyPair a b = classifyPair b a := by
  rw [classifyPair_living_char a ha b hb, classifyPair_living_char b hb a ha]
  by_cases h : a = "living_room" ∨ b = "living_room"
  · rw [if_pos h, if_pos (Or.symm h)]
  · rw [if_neg h, if_neg (fun hc => h (Or.symm hc))]

/-- Witness for C7 at the concrete pair `(kitchen, bedroom)`. -/
theorem c7_witness :
    "kitchen" ∈ catalogNames ∧ "bedroom" ∈ catalogNames ∧
    classifyPair "kitchen" "bedroom" = classifyPair "bedroom" "kitchen" :=
  ⟨by decide, by decide, c7_classify_comm "kitchen" "bedroom" (by decide)
    (by decide)⟩

/-- Claim C9: graph construction records one warning per unknown name (in
input order) and keeps going, and fails with the fatal
`No valid room types provided` error exactly when no entry resolves;
whenever at least one entry resolves a graph is produced. -/
theorem c9_unknown_warns_empty_fatal (rt : List String) :
    (create_data_driven_graph rt).1 =
      rt.filter (fun nm => (lookupRoom nm).isNone) ∧
    ((create_data_driven_graph rt).2 =
        Except.error "No valid room types provided" ↔
      ∀ nm ∈ rt, lookupRoom nm = none) ∧
    ((¬ ∀ nm ∈ rt, lookupRoom nm = none) →
      ∃ g, (create_data_driven_graph rt).2 = Except.ok g) := by
  have hempty : (resolveRooms rt).1 = [] ↔ ∀ nm ∈ rt, lookupRoom nm = none := by
    rw [resolveRooms_fst, List.filterMap_eq_nil_iff]
    constructor
    · intro h nm hm
      have := h nm hm
      cases hv : lookupRoom nm with
      | none => rfl
      | some v => rw [hv] at this; cases this
    · intro h nm hm
      rw [h nm hm]
      rfl
  refine ⟨?_, ?_, ?_⟩
  · unfold create_data_driven_graph
    by_cases he : (resolveRooms rt).1.isEmpty <;>
      simp [he, resolveRooms_snd]
  · unfold create_data_driven_graph
    by_cases he : (resolveRooms rt).1.isEmpty
    · simp only [he, if_true]
      simp only [List.isEmpty_iff] at he
      simpa using hempty.mp he
    · simp only [he, Bool.false_eq_true, if_false]
      simp only [List.isEmpty_iff] at he
      constructor
      · intro h
        cases h
      · intro h
        exact absurd (hempty.mpr h) he
  · intro h
    unfold create_data_driven_graph
    have he : (resolveRooms rt).1.isEmpty = false := by
      rw [Bool.eq_false_iff]
      intro hc
      rw [List.isEmpty_iff] at hc
      exact h (hempty.mp hc)
    simp only [he, Bool.false_eq_true, if_false]
    exact ⟨_, rfl⟩

/-- The last refinement pass fixes exactly the indices whose type is among
the first `numPasses` sorted distinct types; when the distinct-type count is
at most 10 that is every node index. -/
theorem getLastD_fixed_schedule {μ : Type} (infer : Option μ × List Nat → μ)
    (rn : List Nat) (hP : 1 ≤ numPasses rn) :
    ((refineStates infer rn).map Prod.snd).getLastD [] =
      fixedNodes rn (numPasses rn - 1) := by
  rw [refineStates_map_snd, List.getLastD_cons, List.getLastD_eq_getLast?,
    List.getLast?_eq_getElem?]
  have hlen : ((List.range (numPasses rn)).map (fixedNodes rn)).length =
      numPasses rn := by
    rw [List.length_map, List.length_range]
  rw [hlen, List.getElem?_eq_getElem (by omega : numPasses rn - 1 <
    ((List.range (numPasses rn)).map (fixedNodes rn)).length)]
  simp only [Option.getD_some]
  rw [List.getElem_map, List.getElem_range]

/-- Claim C2 counterexample: the request `rtEleven` resolves to 11 distinct
type ids, the pass count is capped at 10, and the fixed set of the last
refinement pass omits node index 10 — it is not the full node index set. -/
theorem c2_counterexample :
    generate_floorplan_states (fun _ : Option Unit × List Nat => ())
        rtEleven =
      Except.ok (refineStates (fun _ => ()) rnEleven) ∧
    rnEleven.length = 11 ∧
    (10 : Nat) < rnEleven.length ∧
    ¬ ((10 : Nat) ∈ ((refineStates (fun _ : Option Unit × List Nat => ())
        rnEleven).map Prod.snd).getLastD []) := by
  refine ⟨rfl, rfl, by decide, by decide⟩

/-- Claim C2, amended: over one run, the fixed-node sets handed to the model
are monotonically non-decreasing by set inclusion, and — provided the
distinct-type count does not exceed the pass cap of 10 — the last
refinement pass's fixed set is the full node index set. -/
theorem c2_fixed_monotone_and_final {μ : Type}
    (infer : Option μ × List Nat → μ) (rt : List String)
    (g : ConstraintGraph)
    (hg : (create_data_driven_graph rt).2 = Except.ok g) :
    (∀ k, k + 2 ≤ (refineStates infer g.room_ids).length →
      ∀ x ∈ ((refineStates infer g.room_ids).map Prod.snd).getD k [],
        x ∈ ((refineStates infer g.room_ids).map Prod.snd).getD (k + 1) []) ∧
    ((sortedDistinct g.room_ids).length ≤ 10 →
      ∀ i, i ∈ ((refineStates infer g.room_ids).map Prod.snd).getLastD [] ↔
        i < g.room_ids.length) := by
  have hne : g.room_ids ≠ [] := room_ids_ne_nil hg
  have hsd : (sortedDistinct g.room_ids).length ≠ 0 := by
    intro hc
    rw [List.length_eq_zero] at hc
    obtain ⟨t, ht⟩ := List.exists_mem_of_ne_nil _ hne
    have : t ∈ sortedDistinct g.room_ids := mem_sortedDistinct.mpr ht
    rw [hc] at this
    cases this
  constructor
  · intro k hk x hx
    rw [refineStates_length] at hk
    rw [refineStates_map_snd] at hx ⊢
    match k with
    | 0 =>
      rw [List.getD_cons_zero] at hx
      cases hx
    | k0 + 1 =>
      rw [List.getD_cons_succ] at hx ⊢
      rw [getD_map_range _ _ _ (by omega)] at hx
      rw [getD_map_range _ _ _ (by omega)]
      exact fixedNodes_subset_succ g.room_ids k0 hx
  · intro hd i
    have hP : numPasses g.room_ids = (sortedDistinct g.room_ids).length := by
      unfold numPasses
      omega
    rw [getLastD_fixed_schedule infer g.room_ids (by omega),
      mem_fixedNodes]
    constructor
    · exact fun h => h.1
    · intro hi
      refine ⟨hi, ?_⟩
      have hPP : numPasses g.room_ids - 1 + 1 = numPasses g.room_ids := by
        omega
      rw [hPP, hP, List.take_length]
      exact mem_sortedDistinct.mpr
        ((List.getD_eq_getElem _ _ hi) ▸ List.getElem_mem hi)

/-- Witness for the amended C2 at the request `[living_room, bedroom]`
(whose distinct-type count 2 satisfies the pass cap). -/
theorem c2_witness :
    (create_data_driven_graph rtLb).2 = Except.ok gLb ∧
    (sortedDistinct gLb.room_ids).length ≤ 10 ∧
    ((∀ k, k + 2 ≤ (refineStates (fun _ : Option Unit × List Nat => ())
          gLb.room_ids).length →
        ∀ x ∈ ((refineStates (fun _ : Option Unit × List Nat => ())
          gLb.room_ids).map Prod.snd).getD k [],
          x ∈ ((refineStates (fun _ : Option Unit × List Nat => ())
            gLb.room_ids).map Prod.snd).getD (k + 1) []) ∧
     ((sortedDistinct gLb.room_ids).length ≤ 10 →
       ∀ i, i ∈ ((refineStates (fun _ : Option Unit × List Nat => ())
            gLb.room_ids).map Prod.snd).getLastD [] ↔
          i < gLb.room_ids.length)) :=
  ⟨rfl, by decide,
    c2_fixed_monotone_and_final (fun _ => ()) rtLb gLb rfl⟩

/-- With at least two rooms the pair loop emits at least one edge. -/
theorem edgeList_isEmpty_false (rt : List String) (n : Nat) (h2 : 2 ≤ n) :
    (edgeList rt n).isEmpty = false := by
  rw [Bool.eq_false_iff]
  intro hc
  rw [List.isEmpty_iff] at hc
  have hl := length_edgeList rt n
  rw [hc] at hl
  simp only [List.length_nil] at hl
  have : 2 * 1 ≤ n * (n - 1) := Nat.mul_le_mul h2 (by omega)
  omega

/-- Row `i` of a mapped list, through `getD`. -/
theorem getD_map_of_lt {α β : Type} (f : α → β) (l : List α) (i : Nat)
    (hi : i < l.length) (d : β) (e : α) :
    (l.map f).getD i d = f (l.getD i e) := by
  rw [List.getD_eq_getElem _ _ (by simpa using hi),
    List.getD_eq_getElem _ _ hi, List.getElem_map]

/-- A one-hot row has the 18 columns of the node tensor. -/
theorem oneHot_length (room_id : Nat) : (oneHot room_id).length = 18 := by
  simp [oneHot]

/-- Column `t` of a one-hot row. -/
theorem oneHot_getD (room_id t : Nat) (ht : t < 18) :
    (oneHot room_id).getD t 0 = if t = room_id then 1 else 0 := by
  rw [oneHot, getD_map_of_lt _ _ _ (by simpa using ht) _ 0,
    List.getD_eq_getElem _ _ (by simpa using ht), List.getElem_range]

/-- Claim C5: with `n ≥ 2` resolved rooms the edge list holds, for every
unordered index pair `i < j < n`, exactly the two mirrored edges with one
identical relation, and `2 * C(n, 2)` edges in total; with `n = 1` it is
exactly the single placeholder edge `(0, Adjacent, 0)`. -/
theorem c5_mirrored_edge_pairs (rt : List String) (g : ConstraintGraph)
    (hg : (create_data_driven_graph rt).2 = Except.ok g) :
    (g.room_ids.length = 1 → g.edges = [(0, 1, 0)]) ∧
    (2 ≤ g.room_ids.length →
      g.edges.length = 2 * Nat.choose g.room_ids.length 2 ∧
      ∀ i j, i < j → j < g.room_ids.length →
        g.edges.filter (fun e =>
            decide ((e.1 = i ∧ e.2.2 = j) ∨ (e.1 = j ∧ e.2.2 = i))) =
          [(i, classifyPair (rt.getD i "") (rt.getD j ""), j),
           (j, classifyPair (rt.getD i "") (rt.getD j ""), i)]) := by
  have hids := ok_graph_room_ids hg
  have hedges := ok_graph_edges hg
  rw [← hids] at hedges
  constructor
  · intro h1
    rw [h1] at hedges
    have hnil : edgeList rt 1 = [] := rfl
    rw [hnil] at hedges
    simpa using hedges
  · intro h2
    have hne := edgeList_isEmpty_false rt g.room_ids.length h2
    rw [if_neg (by simp [hne])] at hedges
    refine ⟨?_, ?_⟩
    · rw [hedges, length_edgeList, Nat.choose_two_right,
        Nat.mul_div_cancel']
      obtain ⟨m, hm⟩ : ∃ m, g.room_ids.length = m + 1 :=
        ⟨g.room_ids.length - 1, by omega⟩
      rw [hm]
      simpa [Nat.mul_comm] using (Nat.even_mul_succ_self m).two_dvd
    · intro i j hij hj
      rw [hedges]
      exact filter_edgeList_pair hij hj

/-- Witness for C5 at the request `[kitchen, bedroom, bedroom]`. -/
theorem c5_witness :
    (create_data_driven_graph rtKbb).2 = Except.ok gKbb ∧
    ((gKbb.room_ids.length = 1 → gKbb.edges = [(0, 1, 0)]) ∧
     (2 ≤ gKbb.room_ids.length →
       gKbb.edges.length = 2 * Nat.choose gKbb.room_ids.length 2 ∧
       ∀ i j, i < j → j < gKbb.room_ids.length →
         gKbb.edges.filter (fun e =>
             decide ((e.1 = i ∧ e.2.2 = j) ∨ (e.1 = j ∧ e.2.2 = i))) =
           [(i, classifyPair (rtKbb.getD i "") (rtKbb.getD j ""), j),
            (j, classifyPair (rtKbb.getD i "") (rtKbb.getD j ""), i)])) :=
  ⟨rfl, c5_mirrored_edge_pairs rtKbb gKbb rfl⟩

/-- Claim C8: the built graph has one node per resolved entry, in input
order (unknowns dropped), with node `i` carrying the one-hot feature row of
its 0-based catalog type id. -/
theorem c8_nodes_onehot_order (rt : List String) (g : ConstraintGraph)
    (hg : (create_data_driven_graph rt).2 = Except.ok g) :
    g.room_ids = (rt.filter (fun nm => (lookupRoom nm).isSome)).map
      (fun nm => (lookupRoom nm).getD 0 - 1) ∧
    g.nodes.length = (rt.filter (fun nm => (lookupRoom nm).isSome)).length ∧
    (∀ i, i < g.room_ids.length →
      g.nodes.getD i [] = oneHot (g.room_ids.getD i 0) ∧
      g.room_ids.getD i 0 < 18 ∧
      (g.nodes.getD i []).length = 18 ∧
      ∀ t, t < 18 → (g.nodes.getD i []).getD t 0 =
        (if t = g.room_ids.getD i 0 then 1 else 0)) := by
  have hids := ok_graph_room_ids hg
  have hnodes := ok_graph_nodes hg
  have hlen : g.room_ids.length = (resolveRooms rt).1.length := by
    rw [hids]
  refine ⟨by rw [hids, resolveRooms_fst_filter], ?_, ?_⟩
  · rw [hnodes, List.length_map, resolveRooms_fst_filter,
      List.length_map]
  · intro i hi
    have hi2 : i < (resolveRooms rt).1.length := by omega
    have hrow : g.nodes.getD i [] = oneHot (g.room_ids.getD i 0) := by
      rw [hnodes, ← hids, getD_map_of_lt oneHot g.room_ids i hi _ 0]
    have hid : g.room_ids.getD i 0 < 18 := by
      have hmem : g.room_ids.getD i 0 ∈ (resolveRooms rt).1 := by
        rw [← hids]
        exact (List.getD_eq_getElem _ _ hi) ▸ List.getElem_mem hi
      exact resolve_id_lt hmem
    refine ⟨hrow, hid, ?_, ?_⟩
    · rw [hrow, oneHot_length]
    · intro t ht
      rw [hrow, oneHot_getD _ _ ht]

/-- Witness for C8 at the request `[living_room, sauna, kitchen]` (whose
second entry is unknown and dropped). -/
theorem c8_witness :
    (create_data_driven_graph rtSauna).2 = Except.ok gSauna ∧
    (gSauna.room_ids = (rtSauna.filter
        (fun nm => (lookupRoom nm).isSome)).map
      (fun nm => (lookupRoom nm).getD 0 - 1) ∧
     gSauna.nodes.length = (rtSauna.filter
        (fun nm => (lookupRoom nm).isSome)).length ∧
     (∀ i, i < gSauna.room_ids.length →
       gSauna.nodes.getD i [] = oneHot (gSauna.room_ids.getD i 0) ∧
       gSauna.room_ids.getD i 0 < 18 ∧
       (gSauna.nodes.getD i []).length = 18 ∧
       ∀ t, t < 18 → (gSauna.nodes.getD i []).getD t 0 =
         (if t = gSauna.room_ids.getD i 0 then 1 else 0))) :=
  ⟨rfl, c8_nodes_onehot_order rtSauna gSauna rfl⟩

/-- Claim C10 counterexample: the claimed equivalence `relation = Adjacent
iff an endpoint is living_room` fails on graphs the code produces. With
`[kitchen, sauna, living_room]` (unknown entry dropped) the kitchen node 0
and living_room node 1 get a Separate edge, because edge classification
reads names from the unfiltered request; with the single-room request
`[kitchen]` the placeholder edge is Adjacent with no living_room
endpoint. -/
theorem c10_counterexample :
    ((create_data_driven_graph ["kitchen", "sauna", "living_room"]).2 =
        Except.ok ⟨[oneHot 1, oneHot 0], [(0, -1, 1), (1, -1, 0)], [1, 0]⟩ ∧
      ¬ (∀ e ∈ [((0 : Nat), (-1 : Int), (1 : Nat)), (1, -1, 0)],
          ((e.2.1 = 1) ↔
            (([1, 0] : List Nat).getD e.1 99 = 0 ∨
             ([1, 0] : List Nat).getD e.2.2 99 = 0)))) ∧
    ((create_data_driven_graph ["kitchen"]).2 =
        Except.ok ⟨[oneHot 1], [(0, 1, 0)], [1]⟩ ∧
      ¬ (∀ e ∈ [((0 : Nat), (1 : Int), (0 : Nat))],
          ((e.2.1 = 1) ↔
            (([1] : List Nat).getD e.1 99 = 0 ∨
             ([1] : List Nat).getD e.2.2 99 = 0)))) := by
  exact ⟨⟨rfl, by decide⟩, ⟨rfl, by decide⟩⟩

/-- Claim C10, amended: for requests in which every name resolves and at
least two rooms resolve, every edge's relation is `1` or `-1`, and it is
`1` (Adjacent) exactly when one of its endpoints' type ids is living_room
(id 0); every pair with no living_room endpoint is Separate. -/
theorem c10_adjacent_iff_living (rt : List String) (g : ConstraintGraph)
    (hall : ∀ nm ∈ rt, (lookupRoom nm).isSome)
    (hg : (create_data_driven_graph rt).2 = Except.ok g)
    (h2 : 2 ≤ g.room_ids.length) :
    ∀ e ∈ g.edges, (e.2.1 = 1 ∨ e.2.1 = -1) ∧
      ((e.2.1 = 1) ↔
        (g.room_ids.getD e.1 99 = 0 ∨ g.room_ids.getD e.2.2 99 = 0)) := by
  have hids : g.room_ids =
      rt.map (fun nm => (lookupRoom nm).getD 0 - 1) := by
    rw [ok_graph_room_ids hg, resolveRooms_all_known hall]
  have hlen : g.room_ids.length = rt.length := by
    rw [hids, List.length_map]
  have hedges := ok_graph_edges hg
  rw [← ok_graph_room_ids hg] at hedges
  have hne := edgeList_isEmpty_false rt g.room_ids.length h2
  rw [if_neg (by simp [hne])] at hedges
  intro e he
  rw [hedges] at he
  obtain ⟨i, j, hij, hjn, hshape⟩ := mem_edgeList.mp he
  have hiln : i < rt.length := by omega
  have hjln : j < rt.length := by omega
  have hmemi : rt.getD i "" ∈ rt :=
    (List.getD_eq_getElem _ _ hiln) ▸ List.getElem_mem hiln
  have hmemj : rt.getD j "" ∈ rt :=
    (List.getD_eq_getElem _ _ hjln) ▸ List.getElem_mem hjln
  obtain ⟨vi, hvi⟩ := Option.isSome_iff_exists.mp (hall _ hmemi)
  obtain ⟨vj, hvj⟩ := Option.isSome_iff_exists.mp (hall _ hmemj)
  have hcati := mem_catalog_of_lookupRoom hvi
  have hcatj := mem_catalog_of_lookupRoom hvj
  have hcls := classifyPair_living_char _ hcati _ hcatj
  have hidi : g.room_ids.getD i 99 = (lookupRoom (rt.getD i "")).getD 0 - 1 := by
    rw [hids, getD_map_of_lt _ _ _ hiln _ ""]
  have hidj : g.room_ids.getD j 99 = (lookupRoom (rt.getD j "")).getD 0 - 1 := by
    rw [hids, getD_map_of_lt _ _ _ hjln _ ""]
  have hlivi := lookupRoom_living_iff _ hcati
  have hlivj := lookupRoom_living_iff _ hcatj
  rcases hshape with rfl | rfl
  · simp only [hidi, hidj]
    by_cases hl : rt.getD i "" = "living_room" ∨ rt.getD j "" = "living_room"
    · rw [hcls, if_pos hl]
      refine ⟨Or.inl rfl, ?_, fun _ => rfl⟩
      intro _
      rcases hl with hl | hl
      · exact Or.inl (hlivi.mpr hl)
      · exact Or.inr (hlivj.mpr hl)
    · rw [hcls, if_neg hl]
      refine ⟨Or.inr rfl, ?_, ?_⟩
      · intro hc
        exact absurd hc (by decide)
      · intro hc
        rcases hc with hc | hc
        · exact absurd (Or.inl (hlivi.mp hc)) hl
        · exact absurd (Or.inr (hlivj.mp hc)) hl
  · simp only [hidi, hidj]
    by_cases hl : rt.getD i "" = "living_room" ∨ rt.getD j "" = "living_room"
    · rw [hcls, if_pos hl]
      refine ⟨Or.inl rfl, ?_, fun _ => rfl⟩
      intro _
      rcases hl with hl | hl
      · exact Or.inr (hlivi.mpr hl)
      · exact Or.inl (hlivj.mpr hl)
    · rw [hcls, if_neg hl]
      refine ⟨Or.inr rfl, ?_, ?_⟩
      · intro hc
        exact absurd hc (by decide)
      · intro hc
        rcases hc with hc | hc
        · exact absurd (Or.inr (hlivj.mp hc)) hl
        · exact absurd (Or.inl (hlivi.mp hc)) hl

/-- Witness for the amended C10 at the all-known request
`[bedroom, living_room, bedroom]`. -/
theorem c10_witness :
    (∀ nm ∈ rtBlb, (lookupRoom nm).isSome) ∧
    (create_data_driven_graph rtBlb).2 = Except.ok gBlb ∧
    2 ≤ gBlb.room_ids.length ∧
    (∀ e ∈ gBlb.edges, (e.2.1 = 1 ∨ e.2.1 = -1) ∧
      ((e.2.1 = 1) ↔
        (gBlb.room_ids.getD e.1 99 = 0 ∨
         gBlb.room_ids.getD e.2.2 99 = 0))) :=
  ⟨by decide, rfl, by decide,
    c10_adjacent_iff_living rtBlb gBlb (by decide) rfl (by decide)⟩

/-- Witness for C9 at the request `[living_room, sauna, kitchen]`: one
warning for the unknown `sauna`, no fatal error, and a graph is produced
(the empty and the all-unknown request are the fatal cases). -/
theorem c9_witness :
    ((create_data_driven_graph ["living_room", "sauna", "kitchen"]).1 =
      ["living_room", "sauna", "kitchen"].filter
        (fun nm => (lookupRoom nm).isNone) ∧
    ((create_data_driven_graph ["living_room", "sauna", "kitchen"]).2 =
        Except.error "No valid room types provided" ↔
      ∀ nm ∈ ["living_room", "sauna", "kitchen"], lookupRoom nm = none) ∧
    ((¬ ∀ nm ∈ ["living_room", "sauna", "kitchen"], lookupRoom nm = none) →
      ∃ g, (create_data_driven_graph
        ["living_room", "sauna", "kitchen"]).2 = Except.ok g)) ∧
    (create_data_driven_graph ["living_room", "sauna", "kitchen"]).1 =
      ["sauna"] ∧
    ¬ (∀ nm ∈ ["living_room", "sauna", "kitchen"], lookupRoom nm = none) :=
  ⟨c9_unknown_warns_empty_fatal ["living_room", "sauna", "kitchen"],
    rfl, by decide⟩

end HouseGAN
